import Mathlib

/-!
Shallow embedding of the quota-funded payment reconciliation core of the
newXme repository (TypeScript/Express backend), together with theorems
checking the specification's claims against it.

Embedded source locations:
* `TripayService.generateMerchantRef` / `TripayService.validateCallback`
  (services/tripayService.ts)
* `UserService.getUserQuota` / `updateUserQuota` / `incrementUserQuota` /
  `decrementUserQuota` (services/userService.ts)
* `userRoutes POST /payment/callback`, `GET /topup/history`,
  `POST /topup/calculate` (routes/user.ts)
* `paymentRoutes POST /callback` (routes/payment.ts)

Modelling conventions: JavaScript decimal rendering of a natural number is
embedded as `natRepr`; the SQLite tables are association lists of rows;
HMAC-SHA256 is an abstract parameter `hmac : String → String → String`
(collision-resistance makes it injective on the inputs we consider, so a
concrete injective function instantiates it in counterexamples); monetary
values computed with JS numbers are embedded as rationals.
-/

namespace NewXme

/-! Decimal rendering and parsing of naturals

`natRepr` embeds the JavaScript template-literal rendering of a
non-negative integer (as in `` `INV${timestamp}${random}_U${userId}_Q${quantity}` ``).
`digitsToNat` embeds `parseInt` on a digit string.
-/

/-- Little-endian decimal digits, with explicit recursion fuel so that the
function is structurally recursive (and so evaluates inside the kernel). -/
def natDigitsLEFuel : Nat → Nat → List Char
  | 0, _ => []
  | f + 1, n =>
    if n = 0 then [] else Char.ofNat (48 + n % 10) :: natDigitsLEFuel f (n / 10)

/-- Little-endian decimal digits of `n` (empty for `0`). -/
def natDigitsLE (n : Nat) : List Char := natDigitsLEFuel n n

/-- Decimal rendering of a natural number, as JavaScript renders it. -/
def natRepr (n : Nat) : List Char :=
  if n = 0 then ['0'] else (natDigitsLE n).reverse

/-- Numeric value of a decimal digit character. -/
def digitVal (c : Char) : Nat := c.toNat - 48

/-- Value of a big-endian digit string (the semantics of `parseInt` on an
all-digit string). -/
def digitsToNat (l : List Char) : Nat :=
  l.foldl (fun a c => 10 * a + digitVal c) 0

/-! Merchant reference generation and extraction

`generateMerchantRef` embeds `TripayService.generateMerchantRef`:
`` `INV${timestamp}${random}_U${userId}_Q${quantity}` `` where `random` is
rendered with `padStart(3, '0')`.  `scanUQ` embeds the extraction regex
`/_U(\d+)_Q(\d+)/` used by `userRoutes POST /payment/callback` (leftmost
match; both capture groups are maximal digit runs, which agrees with the
greedy regex because a digit can never match the following `_`).
-/

/-- JavaScript `String.prototype.padStart(3, '0')` on a digit string. -/
def padStart3 (l : List Char) : List Char :=
  if 3 ≤ l.length then l else List.replicate (3 - l.length) '0' ++ l

/-- Embedding of `TripayService.generateMerchantRef`, with the nondeterministic inputs
(`Date.now()` and the random 3-digit suffix) made explicit. -/
def generateMerchantRef (ts rand userId quantity : Nat) : List Char :=
  "INV".data ++ natRepr ts ++ padStart3 (natRepr rand) ++
    "_U".data ++ natRepr userId ++ "_Q".data ++ natRepr quantity

/-- One attempted match of `/_U(\d+)_Q(\d+)/` anchored at the head. -/
def matchUQ : List Char → Option (Nat × Nat)
  | c1 :: c2 :: rest =>
    if c1 = '_' ∧ c2 = 'U' then
      let ds1 := rest.takeWhile Char.isDigit
      if ds1 = [] then none
      else
        match rest.dropWhile Char.isDigit with
        | d1 :: d2 :: rest2 =>
          if d1 = '_' ∧ d2 = 'Q' then
            let ds2 := rest2.takeWhile Char.isDigit
            if ds2 = [] then none else some (digitsToNat ds1, digitsToNat ds2)
          else none
        | _ => none
    else none
  | _ => none

/-- Leftmost match of `/_U(\d+)_Q(\d+)/` over the whole string, returning
the parsed `(user_id, quantity)` capture groups. -/
def scanUQ : List Char → Option (Nat × Nat)
  | [] => none
  | c :: rest =>
    match matchUQ (c :: rest) with
    | some r => some r
    | none => scanUQ rest

/-! JSON values, `JSON.stringify`, and field access

`Json` models the JavaScript values carried by callback bodies.
`jsonStringify` embeds `JSON.stringify` (object keys in insertion order,
no whitespace; string escaping is omitted because no string in this
development contains a character that needs escaping).
-/

/-- Left curly brace character (written by code point to keep it out of
string literals). -/
def lbrace : Char := Char.ofNat 123

/-- Right curly brace character. -/
def rbrace : Char := Char.ofNat 125

/-- Double-quote character. -/
def dquote : Char := Char.ofNat 34

mutual

inductive Json where
  | null : Json
  | bool (b : Bool) : Json
  | num (n : Int) : Json
  | str (s : String) : Json
  | obj (fields : JsonFields) : Json

/-- Object members in insertion order. -/
inductive JsonFields where
  | nil : JsonFields
  | cons (key : String) (value : Json) (rest : JsonFields) : JsonFields

end

/-- Convenience constructor for object member lists. -/
def fieldsOf : List (String × Json) → JsonFields
  | [] => .nil
  | (k, v) :: rest => .cons k v (fieldsOf rest)

/-- Decimal rendering of an integer, as JavaScript renders it. -/
def intRepr (n : Int) : String :=
  if n < 0 then "-" ++ String.mk (natRepr (-n).toNat) else String.mk (natRepr n.toNat)

mutual

/-- Embedding of `JSON.stringify` on a `Json` value. -/
def jsonStringify : Json → String
  | .null => "null"
  | .bool b => if b then "true" else "false"
  | .num n => intRepr n
  | .str s => String.mk [dquote] ++ s ++ String.mk [dquote]
  | .obj fs => String.mk [lbrace] ++ stringifyFields fs ++ String.mk [rbrace]

/-- Comma-separated `"key":value` renderings of an object's fields. -/
def stringifyFields : JsonFields → String
  | .nil => ""
  | .cons k v .nil =>
    String.mk [dquote] ++ k ++ String.mk [dquote] ++ ":" ++ jsonStringify v
  | .cons k v (.cons k2 v2 fs) =>
    String.mk [dquote] ++ k ++ String.mk [dquote] ++ ":" ++ jsonStringify v ++ "," ++
      stringifyFields (.cons k2 v2 fs)

end

/-- First member with the given key (`Array.prototype.find` semantics). -/
def findField : JsonFields → String → Option Json
  | .nil, _ => none
  | .cons k v rest, key => if k == key then some v else findField rest key

/-- Property access `j.k` on a parsed body, `none` when absent
(JavaScript `undefined`). -/
def jsonGet (j : Json) (k : String) : Option Json :=
  match j with
  | .obj fs => findField fs k
  | _ => none

/-- Property access expecting a string value. -/
def jsonGetStr (j : Json) (k : String) : Option String :=
  match jsonGet j k with
  | some (.str s) => some s
  | _ => none

/-- Property access expecting a numeric value. -/
def jsonGetNum (j : Json) (k : String) : Option Int :=
  match jsonGet j k with
  | some (.num n) => some n
  | _ => none

/-! Gateway client callback verification

`validateCallback` embeds `TripayService.validateCallback`: it recomputes
the HMAC over `JSON.stringify(data)` — the re-serialized parsed body, not
the raw request bytes — and compares with `===`.  The keyed hash itself is
an abstract parameter `hmac`. -/

/-- Embedding of `TripayService.validateCallback(signature, data)`. -/
def validateCallback (hmac : String → String → String) (privateKey : String)
    (signature : String) (data : Json) : Bool :=
  let callbackData := jsonStringify data
  let expectedSignature := hmac privateKey callbackData
  signature == expectedSignature

/-- A concrete injective stand-in for HMAC-SHA256 used to evaluate the
development on closed inputs (collision resistance of the real function
is what makes distinct inputs yield distinct tags). -/
def hmacModel (key data : String) : String :=
  "HMAC[" ++ key ++ "|" ++ data ++ "]"

/-! Quota ledger (`UserService`)

Rows of the `users` table restricted to the columns the claims need.
`getUserQuota` embeds the `SELECT quota FROM users WHERE id = ? AND
is_active = 1` lookup (returning `0` when no row matches); `updateUserQuota`
embeds the unconditional `UPDATE users SET quota = ? WHERE id = ?`. -/

structure UserRow where
  id : Nat
  quota : Int
  is_active : Bool
deriving DecidableEq, Repr

/-- Embedding of `UserService.getUserQuota`. -/
def getUserQuota (users : List UserRow) (userId : Nat) : Int :=
  match users.find? (fun u => u.id == userId && u.is_active) with
  | some u => u.quota
  | none => 0

/-- Embedding of `UserService.updateUserQuota`. -/
def updateUserQuota (users : List UserRow) (userId : Nat) (newQuota : Int) :
    List UserRow :=
  users.map fun u => if u.id == userId then { u with quota := newQuota } else u

/-- Embedding of `UserService.incrementUserQuota`. -/
def incrementUserQuota (users : List UserRow) (userId : Nat) (amount : Int) :
    List UserRow :=
  updateUserQuota users userId (getUserQuota users userId + amount)

/-- Embedding of `UserService.decrementUserQuota`: rejected (returning
`false`, state unchanged) when the looked-up quota is below `amount`. -/
def decrementUserQuota (users : List UserRow) (userId : Nat) (amount : Int) :
    Bool × List UserRow :=
  let currentQuota := getUserQuota users userId
  if currentQuota < amount then (false, users)
  else (true, updateUserQuota users userId (currentQuota - amount))

/-! Topup transactions and the `userRoutes POST /payment/callback` handler -/

/-- A row of `topup_transactions` (columns the handlers touch; `reference`
is nullable, `status` is `NOT NULL`). -/
structure TopupTx where
  user_id : Nat
  reference : Option String
  merchant_ref : String
  quantity : Nat
  status : String
  paid_at : Option String
  expired_time : Int
  created_at : Int
deriving DecidableEq, Repr

structure HttpResp where
  status : Nat
  success : Bool
deriving DecidableEq, Repr

structure TopupState where
  transactions : List TopupTx
  users : List UserRow
deriving DecidableEq, Repr

/-- Embedding of `userRoutes POST /payment/callback`: verify the Tripay
signature, look
the transaction up by `callbackData.reference`, re-extract
`(user_id, quantity)` from the merchant reference with `/_U(\d+)_Q(\d+)/`,
overwrite the row's status with `callbackData.status`, and on `PAID`
credit the user's quota via `UserService.incrementUserQuota`.
`now` is `new Date().toISOString()`.  A body without a `status` field
would make the `NOT NULL` update fail, landing in the catch-all `500`. -/
def topupCallback (hmac : String → String → String) (privateKey now : String)
    (signature : String) (body : Json) (st : TopupState) :
    TopupState × HttpResp :=
  if ¬ validateCallback hmac privateKey signature body then
    (st, ⟨400, false⟩)
  else
    match jsonGetStr body "reference" with
    | none => (st, ⟨404, false⟩)
    | some ref =>
      match st.transactions.find? (fun t => t.reference == some ref) with
      | none => (st, ⟨404, false⟩)
      | some tx =>
        let merchantRef :=
          match jsonGetStr body "merchant_ref" with
          | some m => if m == "" then tx.merchant_ref else m
          | none => tx.merchant_ref
        let uq :=
          match scanUQ merchantRef.data with
          | some p => p
          | none => (tx.user_id, tx.quantity)
        match jsonGetStr body "status" with
        | none => (st, ⟨500, false⟩)
        | some newStatus =>
          let txs := st.transactions.map fun t =>
            if t.reference == some ref then
              { t with
                status := newStatus
                paid_at := if newStatus == "PAID" then some now else none }
            else t
          let users :=
            if newStatus == "PAID" then
              incrementUserQuota st.users uq.1 (uq.2 : Int)
            else st.users
          (⟨txs, users⟩, ⟨200, true⟩)

/-! Orders and the `paymentRoutes POST /callback` handler

The generic orders callback parses `user_id` out of the
`INV/{user_id}/{sku}-{qty}/...` merchant reference, reads the invoice with
`SELECT ... WHERE uid = ? AND merchant_ref = ? AND status = 'processing'`,
and then writes the terminal status and (for `PAID`) the atomic
`UPDATE users SET quota = quota + ?` credit.  The read and the write are
separate store operations with no lock between them, so they are embedded
as two functions; the route runs one after the other. -/

structure OrderRow where
  id : Nat
  uid : Nat
  merchant_ref : String
  status : String
  quantity : Int
  no_ref : Option String
deriving DecidableEq, Repr

structure OrdersState where
  orders : List OrderRow
  users : List UserRow
deriving DecidableEq, Repr

/-- JavaScript `String.prototype.split` with a one-character separator. -/
def splitOnChar (sep : Char) : List Char → List (List Char)
  | [] => [[]]
  | c :: rest =>
    let r := splitOnChar sep rest
    if c = sep then [] :: r
    else
      match r with
      | [] => [[c]]
      | h :: t => (c :: h) :: t

/-- The `parseInt`/SQLite text-to-integer coercion of `parts[1]`: an all-digit
string denotes its value, anything else matches no integer `uid`. -/
def parseNatStr (s : List Char) : Option Nat :=
  if s ≠ [] ∧ ∀ c ∈ s, c.isDigit = true then some (digitsToNat s) else none

/-- Embedding of `parseMerchantRef(mref).userId`: `mref.split('/')[1]`. -/
def parseMerchantRefUid (mref : String) : Option Nat :=
  match (splitOnChar '/' mref.data).get? 1 with
  | none => none
  | some s => parseNatStr s

/-- Read phase of `paymentRoutes POST /callback`: the invoice `SELECT`
(conditional on `status = 'processing'`), returning the parsed `uid`
alongside the row. -/
def ordersFindInvoice (mref : String) (orders : List OrderRow) :
    Option (Nat × OrderRow) :=
  match parseMerchantRefUid mref with
  | none => none
  | some uid =>
    (orders.find? (fun o =>
      o.uid == uid && o.merchant_ref == mref && o.status == "processing")).map
      (fun o => (uid, o))

/-- Write phase of `paymentRoutes POST /callback`: the status `UPDATE`
keyed by the invoice id already in hand, plus the atomic quota credit when
the gateway status is `PAID`.  Unrecognized statuses change nothing. -/
def ordersApplyResolution (uid : Nat) (tripayRef : Option String)
    (status : String) (invoice : OrderRow) (st : OrdersState) : OrdersState :=
  if status == "PAID" then
    { orders := st.orders.map fun o =>
        if o.id == invoice.id then
          { o with status := "paid", no_ref := tripayRef }
        else o
      users := st.users.map fun u =>
        if u.id == uid then { u with quota := u.quota + invoice.quantity } else u }
  else if status == "EXPIRED" then
    { st with orders := st.orders.map fun o =>
        if o.id == invoice.id then { o with status := "expired" } else o }
  else if status == "FAILED" then
    { st with orders := st.orders.map fun o =>
        if o.id == invoice.id then { o with status := "failed" } else o }
  else st

/-- Embedding of `paymentRoutes POST /callback` end to end: signature over the
re-serialized body, `X-Callback-Event` check, `is_closed_payment` gate,
then the read phase followed by the write phase. -/
def ordersCallback (hmac : String → String → String)
    (privateKey signature event : String) (body : Json) (st : OrdersState) :
    OrdersState × HttpResp :=
  let jsonData := jsonStringify body
  let expected := hmac privateKey jsonData
  if signature != expected then (st, ⟨400, false⟩)
  else if event != "payment_status" then (st, ⟨400, false⟩)
  else
    let status := ((jsonGetStr body "status").getD "").toUpper
    let isClosedPayment := (jsonGetNum body "is_closed_payment").getD 0
    if isClosedPayment == 1 then
      match jsonGetStr body "merchant_ref" with
      | none => (st, ⟨500, false⟩)
      | some mref =>
        match ordersFindInvoice mref st.orders with
        | none => (st, ⟨404, false⟩)
        | some (uid, invoice) =>
          if status == "PAID" || status == "EXPIRED" || status == "FAILED" then
            (ordersApplyResolution uid (jsonGetStr body "reference") status
              invoice st, ⟨200, true⟩)
          else (st, ⟨400, false⟩)
    else (st, ⟨400, false⟩)

/-! `GET /topup/history`

`SELECT * FROM topup_transactions WHERE user_id = ? ORDER BY created_at
DESC` — rows are returned whole, statuses exactly as stored. -/

/-- Insert into a list kept in descending `created_at` order. -/
def insertDesc (t : TopupTx) : List TopupTx → List TopupTx
  | [] => [t]
  | x :: xs =>
    if x.created_at ≤ t.created_at then t :: x :: xs else x :: insertDesc t xs

/-- Insertion sort by descending `created_at` (the `ORDER BY`). -/
def sortDesc : List TopupTx → List TopupTx
  | [] => []
  | x :: xs => insertDesc x (sortDesc xs)

/-- Embedding of `userRoutes GET /topup/history` for the authenticated user. -/
def topupHistory (userId : Nat) (txs : List TopupTx) : List TopupTx :=
  sortDesc (txs.filter (fun t => t.user_id == userId))

/-! `POST /topup/calculate` — the pricing engine

JavaScript numbers are embedded as rationals (integral quantities and the
tier thresholds are exactly representable, and the handler's arithmetic is
the literal expressions below). -/

structure PricingBreakdown where
  total_amount : ℚ
  discount : ℚ
  discount_amount : ℚ
  final_amount : ℚ
deriving DecidableEq, Repr

inductive CalcResult where
  | invalidQuantity : CalcResult
  | ok (b : PricingBreakdown) : CalcResult
deriving DecidableEq, Repr

/-- Embedding of `userRoutes POST /topup/calculate` (the same tier ladder is inlined in
`POST /topup`): reject `quantity <= 0` (and the falsy `0`) with the
`Invalid quantity` 400, otherwise apply the whole-quantity discount tier
and the subtotal/discount/final arithmetic. -/
def topupCalculate (quantity : Int) (productPrice : ℚ) : CalcResult :=
  if quantity ≤ 0 then .invalidQuantity
  else
    let discount : ℚ :=
      if quantity < 5 then 0
      else if quantity = 5 then 12 / 100
      else if quantity > 5 ∧ quantity ≤ 10 then 20 / 100
      else if quantity ≥ 11 ∧ quantity ≤ 19 then 25 / 100
      else 30 / 100
    let totalAmount : ℚ := quantity * productPrice
    let discountAmount := totalAmount * discount
    let finalAmount := totalAmount - discountAmount
    .ok ⟨totalAmount, discount, discountAmount, finalAmount⟩

/-- The discount ladder exactly as the claim words it: `<5` → 0%, `==5` →
12%, `6..10` → 20%, `11..19` → 25%, `≥20` → 30% (for comparison with the
code's ladder). -/
def claimDiscountTier (q : Int) : ℚ :=
  if q < 5 then 0
  else if q = 5 then 12 / 100
  else if 6 ≤ q ∧ q ≤ 10 then 20 / 100
  else if 11 ≤ q ∧ q ≤ 19 then 25 / 100
  else 30 / 100

/-! A model of `JSON.parse` on raw request bytes

`express.json()` parses the raw body with standard JSON semantics before
any handler runs; this fuel-indexed recursive-descent parser embeds the
fragment needed here (objects, strings without escapes, non-negative
integers), including the insignificant whitespace the standard allows. -/

/-- JSON insignificant whitespace. -/
def isJsonWs (c : Char) : Bool :=
  c == ' ' || c == '\n' || c == '\t' || c == '\r'

/-- Drop leading insignificant whitespace. -/
def skipWs (s : List Char) : List Char := s.dropWhile isJsonWs

mutual

/-- Parse one JSON value, returning it with the unconsumed remainder. -/
def parseValue (fuel : Nat) (s : List Char) : Option (Json × List Char) :=
  match fuel with
  | 0 => none
  | fuel + 1 =>
    match skipWs s with
    | [] => none
    | c :: rest =>
      if c = lbrace then
        match skipWs rest with
        | c2 :: rest2 =>
          if c2 = rbrace then some (.obj .nil, rest2)
          else parseFields fuel (c2 :: rest2) >>= fun (fs, r) => some (.obj fs, r)
        | [] => none
      else if c = dquote then
        let str := rest.takeWhile (fun x => x ≠ dquote)
        match rest.dropWhile (fun x => x ≠ dquote) with
        | c3 :: rest3 =>
          if c3 = dquote then some (.str (String.mk str), rest3) else none
        | [] => none
      else if c.isDigit then
        let ds := (c :: rest).takeWhile Char.isDigit
        some (.num (digitsToNat ds : Nat), (c :: rest).dropWhile Char.isDigit)
      else none

/-- Parse the key/value members of an object, consuming the closing
brace. -/
def parseFields (fuel : Nat) (s : List Char) : Option (JsonFields × List Char) :=
  match fuel with
  | 0 => none
  | fuel + 1 =>
    match skipWs s with
    | c :: rest =>
      if c = dquote then
        let key := rest.takeWhile (fun x => x ≠ dquote)
        match rest.dropWhile (fun x => x ≠ dquote) with
        | c2 :: rest2 =>
          if c2 = dquote then
            match skipWs rest2 with
            | ':' :: rest3 =>
              parseValue fuel rest3 >>= fun (v, r) =>
                match skipWs r with
                | ',' :: r2 =>
                  parseFields fuel r2 >>= fun (fs, r3) =>
                    some (.cons (String.mk key) v fs, r3)
                | c4 :: r2 =>
                  if c4 = rbrace then some (.cons (String.mk key) v .nil, r2)
                  else none
                | [] => none
            | _ => none
          else none
        | [] => none
      else none
    | [] => none

end

/-- Embedding of `JSON.parse` on the raw body bytes: the whole input must be one value
followed only by whitespace. -/
def jsonParse (raw : String) : Option Json :=
  match parseValue (raw.length + 1) raw.data with
  | some (v, rest) => if skipWs rest = [] then some v else none
  | none => none

/-! Sequences of ledger operations

Install consumption (`decrementUserQuota`) and payment crediting
(`incrementUserQuota`) composed in any order, for the ledger invariant. -/

inductive QuotaOp where
  | inc (userId : Nat) (amount : Int) : QuotaOp
  | dec (userId : Nat) (amount : Int) : QuotaOp
deriving DecidableEq, Repr

/-- The amount an operation carries. -/
def quotaOpAmount : QuotaOp → Int
  | .inc _ a => a
  | .dec _ a => a

/-- Run one ledger operation (a rejected decrement leaves the table as
it was). -/
def applyQuotaOp (users : List UserRow) : QuotaOp → List UserRow
  | .inc u a => incrementUserQuota users u a
  | .dec u a => (decrementUserQuota users u a).2

/-- Run a sequence of ledger operations left to right. -/
def applyQuotaOps (users : List UserRow) (ops : List QuotaOp) : List UserRow :=
  ops.foldl applyQuotaOp users

/-! Theorems -/

/-! Decimal rendering plumbing -/

theorem digitsToNat_append_singleton (l : List Char) (c : Char) :
    digitsToNat (l ++ [c]) = 10 * digitsToNat l + digitVal c := by
  simp [digitsToNat, List.foldl_append]

theorem digitVal_ofNat {m : Nat} (h : m < 10) :
    digitVal (Char.ofNat (48 + m)) = m := by
  interval_cases m <;> decide

theorem isDigit_ofNat {m : Nat} (h : m < 10) :
    (Char.ofNat (48 + m)).isDigit = true := by
  interval_cases m <;> decide

theorem natDigitsLEFuel_congr :
    ∀ (a b n : Nat), n ≤ a → n ≤ b → natDigitsLEFuel a n = natDigitsLEFuel b n := by
  intro a
  induction a with
  | zero =>
    intro b n ha _
    interval_cases n
    cases b <;> simp [natDigitsLEFuel]
  | succ f ih =>
    intro b n ha hb
    cases b with
    | zero =>
      interval_cases n
      simp [natDigitsLEFuel]
    | succ g =>
      by_cases hn : n = 0
      · simp [natDigitsLEFuel, hn]
      · have hdiv : n / 10 < n := Nat.div_lt_self (Nat.pos_of_ne_zero hn) (by norm_num)
        simp only [natDigitsLEFuel, if_neg hn]
        rw [ih g (n / 10) (by omega) (by omega)]

theorem natDigitsLE_eq {n : Nat} (h : n ≠ 0) :
    natDigitsLE n = Char.ofNat (48 + n % 10) :: natDigitsLE (n / 10) := by
  obtain ⟨m, rfl⟩ : ∃ m, n = m + 1 := ⟨n - 1, by omega⟩
  have hdiv : (m + 1) / 10 < m + 1 := Nat.div_lt_self (Nat.succ_pos m) (by norm_num)
  unfold natDigitsLE
  simp only [natDigitsLEFuel, if_neg h]
  rw [natDigitsLEFuel_congr m ((m + 1) / 10) ((m + 1) / 10) (by omega) (le_refl _)]

theorem digitsToNat_reverse_natDigitsLE (n : Nat) :
    digitsToNat (natDigitsLE n).reverse = n := by
  induction n using Nat.strong_induction_on with
  | _ n ih =>
    match n with
    | 0 => simp [natDigitsLE, natDigitsLEFuel, digitsToNat]
    | n + 1 =>
      rw [natDigitsLE_eq (Nat.succ_ne_zero n)]
      rw [List.reverse_cons, digitsToNat_append_singleton,
        ih ((n + 1) / 10) (Nat.div_lt_self (Nat.succ_pos n) (by norm_num)),
        digitVal_ofNat (Nat.mod_lt _ (by norm_num))]
      exact Nat.div_add_mod (n + 1) 10

theorem digitsToNat_natRepr (n : Nat) : digitsToNat (natRepr n) = n := by
  unfold natRepr
  split
  · subst_eqs; decide
  · exact digitsToNat_reverse_natDigitsLE n

theorem natDigitsLE_all_digits (n : Nat) :
    ∀ c ∈ natDigitsLE n, c.isDigit = true := by
  induction n using Nat.strong_induction_on with
  | _ n ih =>
    match n with
    | 0 => simp [natDigitsLE, natDigitsLEFuel]
    | n + 1 =>
      rw [natDigitsLE_eq (Nat.succ_ne_zero n)]
      intro c hc
      rcases List.mem_cons.mp hc with h | h
      · subst h; exact isDigit_ofNat (Nat.mod_lt _ (by norm_num))
      · exact ih ((n + 1) / 10) (Nat.div_lt_self (Nat.succ_pos n) (by norm_num)) c h

theorem natRepr_all_digits (n : Nat) : ∀ c ∈ natRepr n, c.isDigit = true := by
  unfold natRepr
  split
  · intro c hc; simp at hc; subst hc; decide
  · intro c hc
    exact natDigitsLE_all_digits n c (List.mem_reverse.mp hc)

theorem natRepr_ne_nil (n : Nat) : natRepr n ≠ [] := by
  unfold natRepr
  split
  · simp
  · simp only [ne_eq, List.reverse_eq_nil_iff]
    rw [natDigitsLE_eq ‹n ≠ 0›]
    simp

theorem ne_underscore_of_isDigit {c : Char} (h : c.isDigit = true) :
    c ≠ '_' := by
  intro hc; subst hc; simp [Char.isDigit] at h

/-! Regex scan plumbing -/

theorem matchUQ_of_head_ne {c : Char} (t : List Char) (h : c ≠ '_') :
    matchUQ (c :: t) = none := by
  match t with
  | [] => rfl
  | c2 :: rest =>
    rw [matchUQ]
    rw [if_neg]
    intro hco
    exact h hco.1

theorem scanUQ_append_of_no_underscore {l : List Char} (s : List Char)
    (h : ∀ c ∈ l, c ≠ '_') : scanUQ (l ++ s) = scanUQ s := by
  induction l with
  | nil => rfl
  | cons c t ih =>
    rw [List.cons_append, scanUQ,
      matchUQ_of_head_ne (t ++ s) (h c (List.mem_cons_self c t))]
    exact ih fun x hx => h x (List.mem_cons_of_mem c hx)

theorem takeWhile_all_append {p : Char → Bool} {l : List Char}
    (h : ∀ c ∈ l, p c = true) {d : Char} (h0 : p d = false)
    (t : List Char) :
    (l ++ d :: t).takeWhile p = l ∧ (l ++ d :: t).dropWhile p = d :: t := by
  induction l with
  | nil => simp [List.takeWhile, List.dropWhile, h0]
  | cons c l' ih =>
    have hc : p c = true := h c (List.mem_cons_self c l')
    have ih' := ih fun x hx => h x (List.mem_cons_of_mem c hx)
    constructor
    · simp [List.takeWhile, hc, ih'.1]
    · simp [List.dropWhile, hc, ih'.2]

theorem takeWhile_all {p : Char → Bool} {l : List Char}
    (h : ∀ c ∈ l, p c = true) : l.takeWhile p = l := by
  induction l with
  | nil => rfl
  | cons c l' ih =>
    simp [List.takeWhile, h c (List.mem_cons_self c l'),
      ih fun x hx => h x (List.mem_cons_of_mem c hx)]

theorem padStart3_no_underscore {l : List Char} (h : ∀ c ∈ l, c ≠ '_') :
    ∀ c ∈ padStart3 l, c ≠ '_' := by
  unfold padStart3
  split
  · exact h
  · intro c hc
    rcases List.mem_append.mp hc with hrep | hl
    · have := List.eq_of_mem_replicate hrep
      subst this; decide
    · exact h c hl

/-- Claim C8: for every user id `u` and quantity `q` (and every timestamp and
random suffix the generator may draw), extracting `(user_id, quantity)`
with the callback handler's regex from the generated merchant reference
returns exactly `(u, q)`: generation followed by extraction is the
identity. -/
theorem c8_merchant_ref_roundtrip (ts rand u q : Nat) :
    scanUQ (generateMerchantRef ts rand u q) = some (u, q) := by
  have hpre : ∀ c ∈ "INV".data ++ natRepr ts ++ padStart3 (natRepr rand),
      c ≠ '_' := by
    intro c hc
    rcases List.mem_append.mp hc with hc' | hc'
    · rcases List.mem_append.mp hc' with hinv | hts
      · fin_cases hinv <;> decide
      · exact ne_underscore_of_isDigit (natRepr_all_digits ts c hts)
    · exact padStart3_no_underscore
        (fun x hx => ne_underscore_of_isDigit (natRepr_all_digits rand x hx))
        c hc'
  have hsplit : generateMerchantRef ts rand u q =
      ("INV".data ++ natRepr ts ++ padStart3 (natRepr rand)) ++
        ('_' :: 'U' :: (natRepr u ++ '_' :: 'Q' :: natRepr q)) := by
    unfold generateMerchantRef
    simp [List.append_assoc]
  rw [hsplit, scanUQ_append_of_no_underscore _ hpre]
  have hu := takeWhile_all_append (p := Char.isDigit)
    (natRepr_all_digits u) (d := '_') (by decide)
    ('Q' :: natRepr q)
  rw [scanUQ, matchUQ]
  rw [if_pos ⟨rfl, rfl⟩]
  simp [hu.1, hu.2, natRepr_ne_nil u, natRepr_ne_nil q,
    takeWhile_all (natRepr_all_digits q), digitsToNat_natRepr]

/-! Quota ledger lemmas -/

theorem getUserQuota_nonneg {users : List UserRow}
    (h : ∀ u ∈ users, 0 ≤ u.quota) (uid : Nat) : 0 ≤ getUserQuota users uid := by
  unfold getUserQuota
  cases hf : users.find? (fun u => u.id == uid && u.is_active) with
  | none => simp
  | some u => exact h u (List.mem_of_find?_eq_some hf)

theorem mem_updateUserQuota {users : List UserRow} {uid : Nat} {nq : Int}
    {w : UserRow} (h : w ∈ updateUserQuota users uid nq) :
    w ∈ users ∨ w.quota = nq := by
  unfold updateUserQuota at h
  rcases List.mem_map.mp h with ⟨x, hx, hxe⟩
  by_cases hid : (x.id == uid) = true
  · right; rw [if_pos hid] at hxe; rw [← hxe]
  · left; rw [if_neg hid] at hxe; rw [← hxe]; exact hx

theorem getUserQuota_eq_of_mem {users : List UserRow} {u : UserRow} {uid : Nat}
    (hpw : users.Pairwise (fun a b => a.id ≠ b.id)) (hu : u ∈ users)
    (hid : u.id = uid) :
    getUserQuota users uid = if u.is_active then u.quota else 0 := by
  induction users with
  | nil => cases hu
  | cons v rest ih =>
    rcases List.pairwise_cons.mp hpw with ⟨hv, hrest⟩
    rcases List.mem_cons.mp hu with heq | hmem
    · subst heq
      unfold getUserQuota
      by_cases hact : u.is_active
      · rw [List.find?_cons_of_pos _ (by simp [hid, hact])]
        simp [hact]
      · rw [List.find?_cons_of_neg _ (by simp [hact])]
        rw [List.find?_eq_none.mpr]
        · simp [hact]
        · intro x hx hpx
          simp only [Bool.and_eq_true, beq_iff_eq] at hpx
          exact hv x hx (by rw [hid, hpx.1])
    · have hvne : v.id ≠ uid := fun hvv => hv u hmem (hvv.trans hid.symm)
      have hstep : getUserQuota (v :: rest) uid = getUserQuota rest uid := by
        unfold getUserQuota
        rw [List.find?_cons_of_neg _ (by simp [hvne])]
      rw [hstep]
      exact ih hrest hmem

theorem applyQuotaOp_nonneg {users : List UserRow} (op : QuotaOp)
    (h : ∀ u ∈ users, 0 ≤ u.quota) (ha : 0 ≤ quotaOpAmount op) :
    ∀ u ∈ applyQuotaOp users op, 0 ≤ u.quota := by
  intro w hw
  cases op with
  | inc uid a =>
    simp only [applyQuotaOp, incrementUserQuota] at hw
    rcases mem_updateUserQuota hw with hmem | hq
    · exact h w hmem
    · rw [hq]
      have h0 := getUserQuota_nonneg h uid
      simp only [quotaOpAmount] at ha
      linarith
  | dec uid a =>
    simp only [applyQuotaOp, decrementUserQuota] at hw
    split at hw
    · exact h w hw
    · rcases mem_updateUserQuota hw with hmem | hq
      · exact h w hmem
      · rw [hq]
        simp only [quotaOpAmount] at ha
        have hle : a ≤ getUserQuota users uid := by omega
        omega

theorem applyQuotaOps_nonneg (ops : List QuotaOp) :
    ∀ (users : List UserRow), (∀ u ∈ users, 0 ≤ u.quota) →
      (∀ op ∈ ops, 0 ≤ quotaOpAmount op) →
      ∀ u ∈ applyQuotaOps users ops, 0 ≤ u.quota := by
  induction ops with
  | nil => intro users h _ u hu; exact h u hu
  | cons op rest ih =>
    intro users h hops u hu
    exact ih (applyQuotaOp users op)
      (applyQuotaOp_nonneg op h (hops op (List.mem_cons_self op rest)))
      (fun o ho => hops o (List.mem_cons_of_mem op ho)) u hu

/-- Claim C9: the quota ledger balance stays a non-negative integer across
every sequence of increments and decrements with non-negative amounts, and
a decrement whose amount exceeds the stored balance of the addressed user
is rejected — `decrementUserQuota` returns `false` and leaves the table
untouched. -/
theorem c9_quota_ledger_never_negative (users : List UserRow)
    (ops : List QuotaOp)
    (h1 : ∀ u ∈ users, 0 ≤ u.quota)
    (h2 : ∀ op ∈ ops, 0 ≤ quotaOpAmount op) :
    (∀ u ∈ applyQuotaOps users ops, 0 ≤ u.quota) ∧
    (∀ (uid : Nat) (amount : Int) (u : UserRow),
      users.Pairwise (fun a b => a.id ≠ b.id) → u ∈ users → u.id = uid →
      u.quota < amount → decrementUserQuota users uid amount = (false, users)) := by
  refine ⟨applyQuotaOps_nonneg ops users h1 h2, ?_⟩
  intro uid amount u hpw hu hid hlt
  have hq : getUserQuota users uid < amount := by
    rw [getUserQuota_eq_of_mem hpw hu hid]
    by_cases hact : u.is_active
    · rw [if_pos hact]; exact hlt
    · rw [if_neg hact]
      have := h1 u hu
      linarith
  unfold decrementUserQuota
  rw [if_pos hq]

/-- Witness for C9 at a concrete ledger: a decrement of 10 against a
balance of 5 is rejected and changes nothing. -/
theorem c9_witness :
    decrementUserQuota [⟨1, 5, true⟩] 1 10 = (false, [⟨1, 5, true⟩]) :=
  (c9_quota_ledger_never_negative [⟨1, 5, true⟩] [] (by decide) (by decide)).2
    1 10 ⟨1, 5, true⟩ (by decide) (by decide) rfl (by decide)

/-- Claim C10: `incrementUserQuota` reads the current balance through the
`is_active = 1` filtered lookup, so crediting a user whose row is inactive
overwrites the stored balance with the credited amount, while an active
user's balance becomes the sum. -/
theorem c10_increment_active_filter (users : List UserRow) (uid : Nat)
    (n : Int) (u : UserRow)
    (hpw : users.Pairwise (fun a b => a.id ≠ b.id)) (hu : u ∈ users)
    (hid : u.id = uid) :
    incrementUserQuota users uid n =
      users.map (fun r => if r.id == uid then
        { r with quota := if u.is_active then u.quota + n else n } else r) := by
  unfold incrementUserQuota updateUserQuota
  rw [getUserQuota_eq_of_mem hpw hu hid]
  by_cases hact : u.is_active
  · simp [hact]
  · simp [hact]

/-- Witness for C10: crediting 2 to an inactive user holding 7 overwrites
the balance to 2; crediting 2 to an active user holding 7 yields 9. -/
theorem c10_witness :
    incrementUserQuota [⟨3, 7, false⟩] 3 2 = [⟨3, 2, false⟩] ∧
    incrementUserQuota [⟨4, 7, true⟩] 4 2 = [⟨4, 9, true⟩] := by
  constructor
  · rw [c10_increment_active_filter [⟨3, 7, false⟩] 3 2 ⟨3, 7, false⟩
      (by decide) (by decide) rfl]
    decide
  · rw [c10_increment_active_filter [⟨4, 7, true⟩] 4 2 ⟨4, 7, true⟩
      (by decide) (by decide) rfl]
    decide

/-! Callback boundary and pricing -/

/-- Claim C5: a callback whose signature fails verification is rejected with
HTTP 400 by both callback handlers, and the store state after the rejection
equals the state before it — no transaction row and no ledger balance is
touched. -/
theorem c5_invalid_signature_rejected_no_mutation
    (hmac : String → String → String) (privateKey now signature event : String)
    (body : Json) (st : TopupState) (ost : OrdersState)
    (h : validateCallback hmac privateKey signature body = false) :
    topupCallback hmac privateKey now signature body st = (st, ⟨400, false⟩) ∧
    ordersCallback hmac privateKey signature event body ost = (ost, ⟨400, false⟩) := by
  have h' : (signature == hmac privateKey (jsonStringify body)) = false := by
    simpa [validateCallback] using h
  constructor
  · unfold topupCallback
    rw [if_pos (by simp [h])]
  · unfold ordersCallback
    rw [if_pos (by simp [bne, h'])]

/-- Witness for C5: a concrete callback with a wrong signature is turned
away with 400 by both handlers, leaving the concrete stores unchanged. -/
theorem c5_witness :
    validateCallback hmacModel "k" "bad" (Json.obj .nil) = false ∧
    topupCallback hmacModel "k" "t0" "bad" (Json.obj .nil)
      ⟨[⟨7, some "T1", "M", 5, "UNPAID", none, 9, 1⟩], [⟨7, 0, true⟩]⟩ =
      (⟨[⟨7, some "T1", "M", 5, "UNPAID", none, 9, 1⟩], [⟨7, 0, true⟩]⟩,
        ⟨400, false⟩) ∧
    ordersCallback hmacModel "k" "bad" "payment_status" (Json.obj .nil)
      ⟨[⟨1, 7, "INV/7/A-1", "processing", 1, none⟩], [⟨7, 0, true⟩]⟩ =
      (⟨[⟨1, 7, "INV/7/A-1", "processing", 1, none⟩], [⟨7, 0, true⟩]⟩,
        ⟨400, false⟩) := by
  have h : validateCallback hmacModel "k" "bad" (Json.obj .nil) = false := by rfl
  exact ⟨h,
    (c5_invalid_signature_rejected_no_mutation hmacModel "k" "t0" "bad"
      "payment_status" (Json.obj .nil)
      ⟨[⟨7, some "T1", "M", 5, "UNPAID", none, 9, 1⟩], [⟨7, 0, true⟩]⟩
      ⟨[⟨1, 7, "INV/7/A-1", "processing", 1, none⟩], [⟨7, 0, true⟩]⟩ h).1,
    (c5_invalid_signature_rejected_no_mutation hmacModel "k" "t0" "bad"
      "payment_status" (Json.obj .nil)
      ⟨[⟨7, some "T1", "M", 5, "UNPAID", none, 9, 1⟩], [⟨7, 0, true⟩]⟩
      ⟨[⟨1, 7, "INV/7/A-1", "processing", 1, none⟩], [⟨7, 0, true⟩]⟩ h).2⟩

theorem codeTier_eq_claimTier (q : Int) :
    (if q < 5 then (0 : ℚ)
     else if q = 5 then 12 / 100
     else if q > 5 ∧ q ≤ 10 then 20 / 100
     else if q ≥ 11 ∧ q ≤ 19 then 25 / 100
     else 30 / 100) = claimDiscountTier q := by
  unfold claimDiscountTier
  split_ifs <;> first | rfl | (exfalso; omega)

/-- Claim C6: for every positive integer quantity and positive unit price the
pricing handler returns `subtotal = q·p`, the claim's whole-quantity
discount tier, `discount_amount = subtotal·tier` and
`final_amount = subtotal − discount_amount`; every quantity ≤ 0 is rejected
with the invalid-quantity error. -/
theorem c6_pricing_tiers (q : Int) (p : ℚ) (hq : 0 < q) (hp : 0 < p) :
    topupCalculate q p =
      .ok ⟨q * p, claimDiscountTier q, q * p * claimDiscountTier q,
        q * p - q * p * claimDiscountTier q⟩ ∧
    ∀ m : Int, m ≤ 0 → topupCalculate m p = .invalidQuantity := by
  constructor
  · unfold topupCalculate
    rw [if_neg (by omega : ¬ q ≤ 0)]
    simp only [codeTier_eq_claimTier]
  · intro m hm
    unfold topupCalculate
    rw [if_pos hm]

/-- Witness for C6 at the spec's own example: quantity 5 at unit price 1000
gets the 12% tier (subtotal 5000, discount 600, final 4400), and a
non-positive quantity is rejected. -/
theorem c6_witness :
    topupCalculate 5 1000 = .ok ⟨5000, 12 / 100, 600, 4400⟩ ∧
    topupCalculate (-3) 1000 = .invalidQuantity := by
  have h := c6_pricing_tiers 5 1000 (by norm_num) (by norm_num)
  refine ⟨?_, h.2 (-3) (by norm_num)⟩
  rw [h.1]
  norm_num [claimDiscountTier]

/-! History lookup (C7) -/

theorem mem_insertDesc {x t : TopupTx} {l : List TopupTx} :
    x ∈ insertDesc t l ↔ x = t ∨ x ∈ l := by
  induction l with
  | nil => simp [insertDesc]
  | cons y ys ih =>
    unfold insertDesc
    split
    · simp [List.mem_cons]
    · simp only [List.mem_cons, ih]
      tauto

theorem mem_sortDesc {x : TopupTx} {l : List TopupTx} :
    x ∈ sortDesc l ↔ x ∈ l := by
  induction l with
  | nil => simp [sortDesc]
  | cons y ys ih => simp [sortDesc, mem_insertDesc, ih]

/-- Claim C7 counterexample: a transaction whose `expired_time` (100) lies
before the current time (200) and whose stored status is still `UNPAID` is
reported by the history lookup with status `UNPAID`, not `EXPIRED` — the
claimed lazy expiry does not happen. -/
theorem c7_counterexample_expired_reported_unpaid :
    topupHistory 1 [⟨1, some "T1", "M1", 5, "UNPAID", none, 100, 10⟩] =
      [⟨1, some "T1", "M1", 5, "UNPAID", none, 100, 10⟩] ∧
    (100 : Int) < 200 ∧ ("UNPAID" : String) ≠ "EXPIRED" :=
  ⟨rfl, by norm_num, by decide⟩

/-- Claim C7 as amended: the history lookup returns exactly the stored rows of
the requesting user, statuses verbatim — so a record whose `expires_at` has
passed while still `UNPAID` is reported as `UNPAID`; no lazy expiry is
applied by any status lookup. -/
theorem c7_history_reports_stored_rows (userId : Nat) (txs : List TopupTx)
    (tx : TopupTx) :
    tx ∈ topupHistory userId txs ↔ tx ∈ txs ∧ tx.user_id = userId := by
  unfold topupHistory
  rw [mem_sortDesc, List.mem_filter]
  simp

/-! The at-most-once crediting claims (C1–C3) and the signature scheme (C4)

These are closed evaluations of the embedded handlers at concrete inputs;
each one exhibits an execution the corresponding claim forbids. -/

/-- Claim C1 refuted: two racing resolvers of the same `processing` invoice both pass
the conditional read (the `SELECT ... AND status = 'processing'` executed
before either write), and the write phase applied by each of them credits
the user once more — the schedule read‖read, write, write ends with quota
10 after two credits of 5, where the claim demands exactly one.  (A single
run credits 5, as the middle conjunct shows.) -/
theorem c1_race_double_credit :
    ordersFindInvoice "INV/7/SKU-5"
        [⟨1, 7, "INV/7/SKU-5", "processing", 5, none⟩] =
      some (7, ⟨1, 7, "INV/7/SKU-5", "processing", 5, none⟩) ∧
    (ordersApplyResolution 7 (some "TR1") "PAID"
        ⟨1, 7, "INV/7/SKU-5", "processing", 5, none⟩
        ⟨[⟨1, 7, "INV/7/SKU-5", "processing", 5, none⟩], [⟨7, 0, true⟩]⟩).users =
      [⟨7, 5, true⟩] ∧
    (ordersApplyResolution 7 (some "TR1") "PAID"
        ⟨1, 7, "INV/7/SKU-5", "processing", 5, none⟩
        (ordersApplyResolution 7 (some "TR1") "PAID"
          ⟨1, 7, "INV/7/SKU-5", "processing", 5, none⟩
          ⟨[⟨1, 7, "INV/7/SKU-5", "processing", 5, none⟩], [⟨7, 0, true⟩]⟩)).users =
      [⟨7, 10, true⟩] :=
  ⟨rfl, rfl, rfl⟩

/-- Claim C2 refuted: replaying an identical, validly signed `PAID` callback against
the topup handler credits the ledger a second time — the balance goes 0 →
5 → 10 instead of staying at 5, and the second call answers 200 success,
not an `AlreadyTerminal` no-op. -/
theorem c2_replay_double_credit :
    (topupCallback hmacModel "pk" "t1"
        (hmacModel "pk" (jsonStringify (Json.obj (fieldsOf
          [("reference", Json.str "T1"),
           ("merchant_ref", Json.str "INV1700000000000123_U7_Q5"),
           ("status", Json.str "PAID")]))))
        (Json.obj (fieldsOf
          [("reference", Json.str "T1"),
           ("merchant_ref", Json.str "INV1700000000000123_U7_Q5"),
           ("status", Json.str "PAID")]))
        ⟨[⟨7, some "T1", "INV1700000000000123_U7_Q5", 5, "UNPAID", none, 9999, 1⟩],
         [⟨7, 0, true⟩]⟩).1.users = [⟨7, 5, true⟩] ∧
    (topupCallback hmacModel "pk" "t2"
        (hmacModel "pk" (jsonStringify (Json.obj (fieldsOf
          [("reference", Json.str "T1"),
           ("merchant_ref", Json.str "INV1700000000000123_U7_Q5"),
           ("status", Json.str "PAID")]))))
        (Json.obj (fieldsOf
          [("reference", Json.str "T1"),
           ("merchant_ref", Json.str "INV1700000000000123_U7_Q5"),
           ("status", Json.str "PAID")]))
        (topupCallback hmacModel "pk" "t1"
          (hmacModel "pk" (jsonStringify (Json.obj (fieldsOf
            [("reference", Json.str "T1"),
             ("merchant_ref", Json.str "INV1700000000000123_U7_Q5"),
             ("status", Json.str "PAID")]))))
          (Json.obj (fieldsOf
            [("reference", Json.str "T1"),
             ("merchant_ref", Json.str "INV1700000000000123_U7_Q5"),
             ("status", Json.str "PAID")]))
          ⟨[⟨7, some "T1", "INV1700000000000123_U7_Q5", 5, "UNPAID", none, 9999, 1⟩],
           [⟨7, 0, true⟩]⟩).1).1.users = [⟨7, 10, true⟩] ∧
    (topupCallback hmacModel "pk" "t2"
        (hmacModel "pk" (jsonStringify (Json.obj (fieldsOf
          [("reference", Json.str "T1"),
           ("merchant_ref", Json.str "INV1700000000000123_U7_Q5"),
           ("status", Json.str "PAID")]))))
        (Json.obj (fieldsOf
          [("reference", Json.str "T1"),
           ("merchant_ref", Json.str "INV1700000000000123_U7_Q5"),
           ("status", Json.str "PAID")]))
        (topupCallback hmacModel "pk" "t1"
          (hmacModel "pk" (jsonStringify (Json.obj (fieldsOf
            [("reference", Json.str "T1"),
             ("merchant_ref", Json.str "INV1700000000000123_U7_Q5"),
             ("status", Json.str "PAID")]))))
          (Json.obj (fieldsOf
            [("reference", Json.str "T1"),
             ("merchant_ref", Json.str "INV1700000000000123_U7_Q5"),
             ("status", Json.str "PAID")]))
          ⟨[⟨7, some "T1", "INV1700000000000123_U7_Q5", 5, "UNPAID", none, 9999, 1⟩],
           [⟨7, 0, true⟩]⟩).1).2 = ⟨200, true⟩ :=
  ⟨rfl, rfl, rfl⟩

/-- Claim C3 refuted: a validly signed callback carrying status `UNPAID` for a
transaction already in the terminal state `PAID` overwrites the stored
status back to `UNPAID` (and nulls `paid_at`), answering 200 — terminal
states are not absorbing in the topup handler. -/
theorem c3_terminal_status_overwritten :
    ((topupCallback hmacModel "pk" "t1"
        (hmacModel "pk" (jsonStringify (Json.obj (fieldsOf
          [("reference", Json.str "T1"), ("status", Json.str "UNPAID")]))))
        (Json.obj (fieldsOf
          [("reference", Json.str "T1"), ("status", Json.str "UNPAID")]))
        ⟨[⟨7, some "T1", "INV1700000000000123_U7_Q5", 5, "PAID", some "t0", 9999, 1⟩],
         [⟨7, 5, true⟩]⟩).1.transactions.map TopupTx.status = ["UNPAID"]) ∧
    ((topupCallback hmacModel "pk" "t1"
        (hmacModel "pk" (jsonStringify (Json.obj (fieldsOf
          [("reference", Json.str "T1"), ("status", Json.str "UNPAID")]))))
        (Json.obj (fieldsOf
          [("reference", Json.str "T1"), ("status", Json.str "UNPAID")]))
        ⟨[⟨7, some "T1", "INV1700000000000123_U7_Q5", 5, "PAID", some "t0", 9999, 1⟩],
         [⟨7, 5, true⟩]⟩).1.transactions.map TopupTx.paid_at = [none]) ∧
    (topupCallback hmacModel "pk" "t1"
        (hmacModel "pk" (jsonStringify (Json.obj (fieldsOf
          [("reference", Json.str "T1"), ("status", Json.str "UNPAID")]))))
        (Json.obj (fieldsOf
          [("reference", Json.str "T1"), ("status", Json.str "UNPAID")]))
        ⟨[⟨7, some "T1", "INV1700000000000123_U7_Q5", 5, "PAID", some "t0", 9999, 1⟩],
         [⟨7, 5, true⟩]⟩).2 = ⟨200, true⟩ :=
  ⟨rfl, rfl, rfl⟩

/-- Claim C4 refuted: the raw body `\x7b "reference": "T1" \x7d` (with its original
whitespace) parses to the object the handler receives, yet verification of
the header that equals the HMAC of those exact raw bytes fails, because the
code recomputes the HMAC over `JSON.stringify(req.body)` — the
re-serialized object — and only a signature over that re-serialization is
accepted. -/
theorem c4_signature_over_reserialized_not_raw :
    jsonParse "\x7b \x22reference\x22: \x22T1\x22 \x7d" =
      some (Json.obj (fieldsOf [("reference", Json.str "T1")])) ∧
    validateCallback hmacModel "pk"
      (hmacModel "pk" "\x7b \x22reference\x22: \x22T1\x22 \x7d")
      (Json.obj (fieldsOf [("reference", Json.str "T1")])) = false ∧
    validateCallback hmacModel "pk"
      (hmacModel "pk"
        (jsonStringify (Json.obj (fieldsOf [("reference", Json.str "T1")]))))
      (Json.obj (fieldsOf [("reference", Json.str "T1")])) = true :=
  ⟨rfl, rfl, rfl⟩

end NewXme
